import Mathlib

/-!
# Verification of the asteroid-data pipeline (`project.py`)

This file embeds the single source file of the repository — a linear
pandas pipeline that loads a CSV of near-Earth-asteroid observations,
filters it by year, prunes columns, computes four aggregate statistics and
renders charts — as executable Lean definitions, and proves (or refutes)
the specification claims about it.

Modelling conventions:

* A pandas `DataFrame` is a `Table`: an ordered list of column names plus
  positional rows (`List Value`).  A cell holds a string, an integer, a
  rational (standing in for a Python float) or `Value.nan` (NaN / `None`).
* Python functions that can raise are embedded as `Except PyErr`-valued
  functions; functions that mutate their argument (`df['year'] = …`,
  `drop(..., inplace=True)`) return the *final state of the argument*
  alongside their Python return value, so mutation is explicit state
  passing.
* Comparisons against NaN are `False`, matching pandas' NaN semantics for
  boolean masks; `.mean`, `idxmax`, `idxmin` and `value_counts` skip NaN,
  as pandas does.
* `float`/`int` coercions of numeric cells are modelled exactly; parsing
  of decimal *strings* by `float(...)` and underscore-grouped literals by
  `int(...)` are not modelled (no claim depends on them).
-/

/-- A scalar cell of the asteroid table: string, integer, float (modelled
as a rational) or missing (NaN / Python `None`). -/
inductive Value where
  | nan : Value
  | int : Int → Value
  | rat : ℚ → Value
  | str : String → Value
deriving DecidableEq

/-- The asteroid table: ordered column names plus positional rows.  A
well-formed (rectangular) table has every row of the same length as the
header; see `Table.WF`. -/
structure Table where
  cols : List String
  rows : List (List Value)
deriving DecidableEq

/-- Rectangularity invariant of a dataframe: each row has exactly one cell
per column. -/
def Table.WF (t : Table) : Prop :=
  ∀ r ∈ t.rows, r.length = t.cols.length

instance (t : Table) : Decidable t.WF := by
  unfold Table.WF; infer_instance

/-- Python exceptions that the embedded code can raise. -/
inductive PyErr where
  | typeError : String → PyErr
  | keyError : String → PyErr
  | attributeError : String → PyErr
  | valueError : String → PyErr
deriving DecidableEq

/-- Index of the first column with the given name (pandas label lookup for
a unique label). -/
def colIdx : List String → String → Option Nat
  | [], _ => Option.none
  | c' :: cs, c => if c' = c then Option.some 0 else (colIdx cs c).map (fun i => i + 1)

/-- The cell of row `r` under column `c` (`df.loc[row, c]`); `nan` when the
column is absent or the row is too short. -/
def getCellRow (cols : List String) (r : List Value) (c : String) : Value :=
  match colIdx cols c with
  | Option.some i => r.getD i Value.nan
  | Option.none => Value.nan

/-- The column `c` as a list of cells (`df[c]` as a positional series). -/
def colVals (t : Table) (c : String) : List Value :=
  t.rows.map (fun r => getCellRow t.cols r c)

/-- Column assignment `df[c] = vs` (pandas): overwrite the column in place
when the label exists, otherwise append it as the last column. -/
def setCol (t : Table) (c : String) (vs : List Value) : Table :=
  match colIdx t.cols c with
  | Option.some i =>
    { cols := t.cols, rows := (t.rows.zip vs).map (fun p => p.1.set i p.2) }
  | Option.none =>
    { cols := t.cols ++ [c], rows := (t.rows.zip vs).map (fun p => p.1 ++ [p.2]) }

/-- Drop the cells of a row that sit under a column named in `cs`. -/
def rowDrop (cols : List String) (cs : List String) (r : List Value) : List Value :=
  ((cols.zip r).filter (fun p => decide (p.1 ∉ cs))).map Prod.snd

/-- `df.drop(columns=cs, errors='ignore')`: remove the named columns when
present; absent names are ignored. -/
def dropCols (t : Table) (cs : List String) : Table :=
  { cols := t.cols.filter (fun c => decide (c ∉ cs)),
    rows := t.rows.map (fun r => rowDrop t.cols cs r) }

/-- `Value.isStr v` is true when the cell is a Python `str`. -/
def Value.isStr : Value → Bool
  | Value.str _ => true
  | _ => false

/-- `Value.isInt v` is true when the cell is a Python `int`. -/
def Value.isInt : Value → Bool
  | Value.int _ => true
  | _ => false

/-- Numeric reading of a cell, as pandas numeric operations see it:
integers and floats are numbers, NaN and strings are skipped. -/
def Value.toRat? : Value → Option ℚ
  | Value.int n => Option.some (n : ℚ)
  | Value.rat q => Option.some q
  | _ => Option.none

/-- Python `int(...)` on the characters of a decimal numeral (no sign):
all characters must be digits. -/
def digitsToNat? (cs : List Char) : Option Nat :=
  if cs ≠ [] ∧ cs.all Char.isDigit then
    Option.some (cs.foldl (fun a c => a * 10 + (c.toNat - 48)) 0)
  else
    Option.none

/-- Strip whitespace from both ends of a character list (Python
`str.strip()` as `int(...)` applies it). -/
def trimChars (cs : List Char) : List Char :=
  ((cs.dropWhile Char.isWhitespace).reverse.dropWhile Char.isWhitespace).reverse

/-- Python `int(s)` on a string: surrounding whitespace stripped, an
optional sign followed by decimal digits; anything else raises
`ValueError`, modelled as `none`.  (Underscore digit grouping is not
modelled.) -/
def pyInt (s : String) : Option Int :=
  match trimChars s.toList with
  | '-' :: rest => (digitsToNat? rest).map (fun n => -(n : Int))
  | '+' :: rest => (digitsToNat? rest).map (fun n => (n : Int))
  | rest => (digitsToNat? rest).map (fun n => (n : Int))

/-- Split a character list at every occurrence of `sep` (Python
`str.split(sep)`: no collapsing of consecutive separators, the empty
string splits to one empty part). -/
def splitChars (sep : Char) : List Char → List (List Char)
  | [] => [[]]
  | ch :: rest =>
    let r := splitChars sep rest
    if ch = sep then [] :: r
    else
      match r with
      | [] => [[ch]]
      | g :: gs => (ch :: g) :: gs

/-- Python `s.split(sep)` for a one-character separator. -/
def splitOnChar (s : String) (sep : Char) : List String :=
  (splitChars sep s.toList).map (fun cs => String.mk cs)

/-- Python `int(...)` applied to a cell: exact on `int` cells, truncates
floats toward zero, parses numeral strings, and fails (`ValueError` /
`TypeError`, modelled as `none`) on NaN and non-numeral strings. -/
def pyIntOfValue : Value → Option Int
  | Value.int n => Option.some n
  | Value.rat q => Option.some (if 0 ≤ q then ⌊q⌋ else ⌈q⌉)
  | Value.str s => pyInt s
  | Value.nan => Option.none

/-- Stage 2 helper (`extract_year`, src lines 58–65): split the date
string on the hyphen; exactly three parts whose first parses as an
integer yield that integer, otherwise `None` (a failing `int(...)` raises
`ValueError`, which the source catches and turns into `None`). -/
def extract_year (date_str : String) : Option Int :=
  let parts := splitOnChar date_str '-'
  if parts.length = 3 then pyInt (parts.headD "") else Option.none

/-- The cell stored by `df['year'] = df['Close Approach Date'].apply(extract_year)`
for one date cell: the parsed year, or NaN when unparseable. -/
def yearValue (v : Value) : Value :=
  match v with
  | Value.str s =>
    match extract_year s with
    | Option.some y => Value.int y
    | Option.none => Value.nan
  | _ => Value.nan

/-- The boolean mask `df['year'] >= 2000` on one cell; NaN compares
`False`. -/
def yearGe2000 : Value → Bool
  | Value.int n => decide (2000 ≤ n)
  | Value.rat q => decide ((2000 : ℚ) ≤ q)
  | _ => false

/-- The year-filter predicate on a row as the spec states it: the
Close Approach Date cell is a string whose extracted year is ≥ 2000. -/
def rowYearOK (cols : List String) (r : List Value) : Bool :=
  match getCellRow cols r "Close Approach Date" with
  | Value.str s =>
    match extract_year s with
    | Option.some y => decide (2000 ≤ y)
    | Option.none => false
  | _ => false

/-- Stage 2 (`mask_data`, src lines 67–70).  `df['year'] = …` mutates the
caller's dataframe (year column appended, or overwritten if a `year`
column already exists); the local rebinding `df = df[df['year'] >= 2000]
.drop(columns='year')` builds the returned table.  Result: `(state of the
caller's dataframe, returned table)`.  Raises `KeyError` when the date
column is missing and `AttributeError` when some date cell is not a
string (`.split` on a non-string; only `ValueError` is caught in
`extract_year`). -/
def mask_data (df : Table) : Except PyErr (Table × Table) :=
  if _hc : "Close Approach Date" ∈ df.cols then
    if _hs : ∀ r ∈ df.rows, (getCellRow df.cols r "Close Approach Date").isStr = true then
      let years := df.rows.map (fun r => yearValue (getCellRow df.cols r "Close Approach Date"))
      let dfYear := setCol df "year" years
      let kept : Table :=
        { cols := dfYear.cols,
          rows := dfYear.rows.filter (fun r => yearGe2000 (getCellRow dfYear.cols r "year")) }
      Except.ok (dfYear, dropCols kept ["year"])
    else
      Except.error (PyErr.attributeError "split")
  else
    Except.error (PyErr.keyError "Close Approach Date")

/-- The exclusion set of Stage 3. -/
def dropList : List String := ["Orbiting Body", "Neo Reference ID", "Equinox"]

/-- Stage 3 (`data_details`, src lines 95–100): drops the exclusion-set
columns from the caller's dataframe **in place** (`inplace=True`,
`errors='ignore'`) and returns the triple `(row count, column count,
remaining column names)` of the mutated dataframe.  Result: `(state of
the caller's dataframe, Python return value)`. -/
def data_details (df : Table) : Table × (Nat × Nat × List String) :=
  let df2 := dropCols df dropList
  (df2, (df2.rows.length, df2.cols.length, df2.cols))

/-- `Series.idxmax` (skipna): position and value of the first maximal
numeric entry; `none` when no entry is numeric (pandas raises). -/
def idxmaxO : List Value → Option (Nat × ℚ)
  | [] => Option.none
  | v :: vs =>
    match idxmaxO vs, v.toRat? with
    | Option.none, Option.none => Option.none
    | Option.none, Option.some q => Option.some (0, q)
    | Option.some (j, m), Option.none => Option.some (j + 1, m)
    | Option.some (j, m), Option.some q =>
      if m > q then Option.some (j + 1, m) else Option.some (0, q)

/-- `Series.idxmin` (skipna): position and value of the first minimal
numeric entry. -/
def idxminO : List Value → Option (Nat × ℚ)
  | [] => Option.none
  | v :: vs =>
    match idxminO vs, v.toRat? with
    | Option.none, Option.none => Option.none
    | Option.none, Option.some q => Option.some (0, q)
    | Option.some (j, m), Option.none => Option.some (j + 1, m)
    | Option.some (j, m), Option.some q =>
      if m < q then Option.some (j + 1, m) else Option.some (0, q)

/-- Stage 4 (`max_absolute_magnitude`, src lines 120–122):
`int(df.loc[idxmax, 'Name'])` and `float(df.loc[idxmax, 'Absolute
Magnitude'])`.  `none` models the uncaught exceptions (empty/all-NaN
column, non-numeral name). -/
def max_absolute_magnitude (df : Table) : Option (Int × ℚ) :=
  match idxmaxO (colVals df "Absolute Magnitude") with
  | Option.none => Option.none
  | Option.some (i, _) =>
    match pyIntOfValue (getCellRow df.cols (df.rows.getD i []) "Name"),
          Value.toRat? (getCellRow df.cols (df.rows.getD i []) "Absolute Magnitude") with
    | Option.some n, Option.some m => Option.some (n, m)
    | _, _ => Option.none

/-- Stage 5 (`closest_to_earth`, src lines 137–140):
`int(df.loc[idxmin, 'Name'])` for the Miss Dist.(kilometers) column. -/
def closest_to_earth (df : Table) : Option Int :=
  match idxminO (colVals df "Miss Dist.(kilometers)") with
  | Option.none => Option.none
  | Option.some (i, _) =>
    pyIntOfValue (getCellRow df.cols (df.rows.getD i []) "Name")

/-- The distinct values of a list in first-encounter order (the key order
of the pandas value-counting hash table). -/
def firstKeys (l : List Value) : List Value :=
  l.foldl (fun acc v => if v ∈ acc then acc else acc ++ [v]) []

/-- One step of a stable descending-by-count insertion: the inserted pair
(coming earlier in key order) goes in front of every pair of equal or
smaller count. -/
def oinsert (x : Value × Nat) : List (Value × Nat) → List (Value × Nat)
  | [] => [x]
  | y :: ys => if y.2 ≤ x.2 then x :: y :: ys else y :: oinsert x ys

/-- Stable sort of (key, count) pairs by descending count. -/
def csort : List (Value × Nat) → List (Value × Nat)
  | [] => []
  | x :: xs => oinsert x (csort xs)

/-- `Series.value_counts()`: NaN entries dropped, remaining values counted
(keys in first-encounter order) and sorted by descending count.  The sort
is modelled as stable, realising the documented tie behaviour (most
frequent first, ties in first-encountered order). -/
def value_counts (vs : List Value) : List (Value × Nat) :=
  let nn := vs.filter (fun v => decide (v ≠ Value.nan))
  csort ((firstKeys nn).map (fun k => (k, nn.count k)))

/-- Stage 6 (`common_orbit`, src lines 155–156):
`df['Orbit ID'].value_counts()`. -/
def common_orbit (df : Table) : List (Value × Nat) :=
  value_counts (colVals df "Orbit ID")

/-- `Series.mean()` (skipna): arithmetic mean of the numeric entries,
NaN (`none`) when there are none. -/
def pandasMean (vs : List Value) : Option ℚ :=
  let qs := vs.filterMap Value.toRat?
  if qs.length = 0 then Option.none else Option.some (qs.sum / (qs.length : ℚ))

/-- The boolean mask `cell > m` (NaN and strings compare `False`). -/
def vGtB (v : Value) (m : ℚ) : Bool :=
  match v.toRat? with
  | Option.some q => decide (m < q)
  | Option.none => false

/-- Stage 7 (`min_max_diameter`, src lines 172–174): the mean of the
`Est Dia in KM(min)` column, then the number of rows whose value strictly
exceeds it (a NaN mean makes every comparison `False`, hence count 0). -/
def min_max_diameter (df : Table) : Nat :=
  match pandasMean (colVals df "Est Dia in KM(min)") with
  | Option.none => 0
  | Option.some m =>
    (df.rows.filter (fun r => vGtB (getCellRow df.cols r "Est Dia in KM(min)") m)).length

/-- The outcomes of `pd.read_csv`, as the `except` arms of Stage 1
classify them. -/
inductive CsvError where
  | fileNotFound : CsvError
  | emptyData : CsvError
  | parseBad : CsvError
  | unexpected : String → CsvError
deriving DecidableEq

/-- Stage 1 (`load_data`, src lines 25–38), parameterised by the
behaviour `fs` of `pd.read_csv` on each path: on success the dataframe is
returned with no diagnostic; each failure kind prints its own diagnostic
line and the function returns `None`.  Result: `(printed lines, Python
return value)`. -/
def load_data (fs : String → Except CsvError Table) (filename : String) :
    List String × Option Table :=
  match fs filename with
  | Except.ok df => ([], Option.some df)
  | Except.error CsvError.fileNotFound =>
    (["Error: The file was not found."], Option.none)
  | Except.error CsvError.emptyData =>
    (["Error: The file is empty."], Option.none)
  | Except.error CsvError.parseBad =>
    (["Error: Failed to parse the file. Please check its format."], Option.none)
  | Except.error (CsvError.unexpected m) =>
    (["Error: An unexpected error occurred - " ++ m], Option.none)

/-- The diagnostic line Stage 1 prints for each `pd.read_csv` failure. -/
def errMsg : CsvError → String
  | CsvError.fileNotFound => "Error: The file was not found."
  | CsvError.emptyData => "Error: The file is empty."
  | CsvError.parseBad => "Error: Failed to parse the file. Please check its format."
  | CsvError.unexpected m => "Error: An unexpected error occurred - " ++ m

/-- `pd.read_csv` as it stands in the module as shipped: the module has no
`import` statement, so evaluating `pd` raises `NameError`, which the bare
`except Exception` arm of `load_data` catches as an unexpected error. -/
def pdMissing : String → Except CsvError Table :=
  fun _ => Except.error (CsvError.unexpected "name pd is not defined")

/-- Python call semantics of `load_data(...)` at Stage 13 (src line 371):
`filename` is a required positional parameter, so calling with no
argument raises `TypeError` before the body runs; calling with one runs
the body (which, with no imports in the module, reports the `NameError`
on `pd` generically and returns `None`). -/
def call_load_data (arg : Option String) : Except PyErr (List String × Option Table) :=
  match arg with
  | Option.none =>
    Except.error (PyErr.typeError "load_data() missing 1 required positional argument: filename")
  | Option.some f => Except.ok (load_data pdMissing f)

/-- Stage 13, `df = mask_data(df)`: subscripting `None` (the `df['year']`
assignment inside `mask_data`) raises `TypeError` when the loader
returned `None`. -/
def maskStage (odf : Option Table) : Except PyErr (Table × Table) :=
  match odf with
  | Option.none => Except.error (PyErr.typeError "NoneType object is not subscriptable")
  | Option.some t => mask_data t

/-- The column list of the Stage 13 projection (src lines 375–381). -/
def select13 : List String :=
  ["Name", "Close Approach Date", "Absolute Magnitude",
   "Miss Dist.(kilometers)", "Orbit ID",
   "Est Dia in KM(min)", "Est Dia in KM(max)",
   "Minimum Orbit Intersection", "Miles per hour", "Hazardous",
   "Orbiting Body", "Neo Reference ID", "Equinox"]

/-- Stage 13, `df = df[[...]]`: reindex the table to exactly the thirteen
selected columns, in the order of the selection list; `KeyError` when any
is missing. -/
def selectCols (df : Table) : Except PyErr Table :=
  if _h : ∀ c ∈ select13, c ∈ df.cols then
    Except.ok { cols := select13,
                rows := df.rows.map (fun r => select13.map (fun c => getCellRow df.cols r c)) }
  else
    Except.error (PyErr.keyError "columns not found")

/-- Stage 8 (`run_analysis_and_print`) reduced to the aggregate values it
computes; an aggregate that would raise in Python (modelled `none`)
surfaces as an error. -/
def analysisStage (df : Table) :
    Except PyErr ((Int × ℚ) × Int × List (Value × Nat) × Nat) :=
  match max_absolute_magnitude df, closest_to_earth df with
  | Option.some mm, Option.some ce =>
    Except.ok (mm, ce, common_orbit df, min_max_diameter df)
  | _, _ => Except.error (PyErr.valueError "aggregate failed")

/-- Stage 13 (src lines 370–388), as the module executes top to bottom:
each completed stage is recorded; execution stops at the first raised
exception.  The chart calls after `run_analysis_and_print` are external
rendering side effects and add no further data transformation. -/
def runPipeline : List String × Option PyErr :=
  match call_load_data Option.none with
  | Except.error e => ([], Option.some e)
  | Except.ok (_, odf) =>
    match maskStage odf with
    | Except.error e => (["load_data"], Option.some e)
    | Except.ok (_, t1) =>
      match selectCols t1 with
      | Except.error e => (["load_data", "mask_data"], Option.some e)
      | Except.ok t2 =>
        match analysisStage t2 with
        | Except.error e => (["load_data", "mask_data", "select"], Option.some e)
        | Except.ok _ =>
          (["load_data", "mask_data", "select", "run_analysis_and_print"], Option.none)

/-- The data path of Stage 13 after the loader, in isolation (used to
examine what the analysis stage would consume had the load succeeded):
the Filter followed by the thirteen-column projection. -/
def stage3Of (t : Table) : Option Table :=
  ((mask_data t).toOption).bind (fun p => (selectCols p.2).toOption)

/-! ## Concrete tables and read behaviours used by the claim theorems -/

/-- Concrete three-row table exercising retention, a pre-2000 year and an
unparseable date. -/
def exC1 : Table :=
  Table.mk ["Name", "Close Approach Date"]
    [[Value.int 1, Value.str "2001-05-06"],
     [Value.int 2, Value.str "1999-01-02"],
     [Value.int 3, Value.str "oops"]]

/-- Two-row table with all years ≥ 2000, for the C10 witness. -/
def exC10 : Table :=
  Table.mk ["Close Approach Date"]
    [[Value.str "2005-01-01"], [Value.str "2030-12-31"]]

/-- The caller-state `mask_data` leaves behind on `exC10` (year column
appended). -/
def exC10st : Table :=
  Table.mk ["Close Approach Date", "year"]
    [[Value.str "2005-01-01", Value.int 2005],
     [Value.str "2030-12-31", Value.int 2030]]

/-- One-row table for the C4 counterexample. -/
def exC4 : Table :=
  Table.mk ["Close Approach Date"] [[Value.str "2001-01-01"]]

/-- Companion table for the C4 counterexample on the Column Pruner. -/
def exC4b : Table :=
  Table.mk ["Name", "Orbiting Body"] [[Value.int 1, Value.str "Earth"]]

/-- Two-row table for the C6 counterexample. -/
def exC6 : Table :=
  Table.mk ["Name", "Neo Reference ID"]
    [[Value.int 5, Value.int 100], [Value.int 6, Value.int 200]]

/-- A full thirteen-column table in the Stage 13 selection order, with a
post-2000 date. -/
def exC3 : Table :=
  Table.mk select13
    [[Value.int 11, Value.str "2024-01-02", Value.rat 5, Value.rat 100, Value.int 3,
      Value.rat 1, Value.rat 2, Value.rat 3, Value.rat 4, Value.int 0,
      Value.str "Earth", Value.int 12345, Value.str "J2000"]]

/-- All-numeric reading of a value list: `some qs` exactly when every
cell is numeric (`Value.toRat?` succeeds pointwise). -/
def toRats : List Value → Option (List ℚ)
  | [] => Option.some []
  | v :: vs =>
    match v.toRat?, toRats vs with
    | Option.some q, Option.some qs => Option.some (q :: qs)
    | _, _ => Option.none

/-- First-encounter rank of an Orbit ID key among the non-NaN column
values (used to state the tie order of `common_orbit`). -/
def keyRank (df : Table) (k : Value) : Nat :=
  (firstKeys ((colVals df "Orbit ID").filter (fun v => decide (v ≠ Value.nan)))).findIdx
    (fun x => x == k)

/-- Three-row table realising the spec test vector for the extremum
aggregators: Names A, B, C instantiated as the numeric identifiers
10, 20, 30; Miss Dist. values 500, 100, 900. -/
def exC5 : Table :=
  Table.mk ["Name", "Absolute Magnitude", "Miss Dist.(kilometers)"]
    [[Value.int 10, Value.rat 5, Value.rat 500],
     [Value.int 20, Value.rat 7, Value.rat 100],
     [Value.int 30, Value.rat 6, Value.rat 900]]

/-- Min-diameter column [1, 2, 3, 4] (mean 2.5). -/
def exC7 : Table :=
  Table.mk ["Est Dia in KM(min)"]
    [[Value.rat 1], [Value.rat 2], [Value.rat 3], [Value.rat 4]]

/-- Orbit ID column [5, 5, 7, 5, 7]. -/
def exC8 : Table :=
  Table.mk ["Orbit ID"]
    [[Value.int 5], [Value.int 5], [Value.int 7], [Value.int 5], [Value.int 7]]

/-- Orbit ID column [5, 5, 7, 7]: a tie in counts. -/
def exC8t : Table :=
  Table.mk ["Orbit ID"]
    [[Value.int 5], [Value.int 5], [Value.int 7], [Value.int 7]]

/-- A `pd.read_csv` behaviour failing with FileNotFoundError on every
path (for the C9 witness). -/
def fsC9 : String → Except CsvError Table :=
  fun _ => Except.error CsvError.fileNotFound

/-! ## Basic lemmas about the table primitives -/

lemma colIdx_eq_none {cols : List String} {c : String} (h : c ∉ cols) :
    colIdx cols c = Option.none := by
  induction cols with
  | nil => rfl
  | cons c' cs ih =>
    have h1 : ¬ (c' = c) := fun he => h (by simp [he])
    have h2 : c ∉ cs := fun hm => h (List.mem_cons_of_mem _ hm)
    simp [colIdx, h1, ih h2]

lemma colIdx_append_self {cols : List String} {c : String} (h : c ∉ cols) :
    colIdx (cols ++ [c]) c = Option.some cols.length := by
  induction cols with
  | nil => simp [colIdx]
  | cons c' cs ih =>
    have h1 : ¬ (c' = c) := fun he => h (by simp [he])
    have h2 : c ∉ cs := fun hm => h (List.mem_cons_of_mem _ hm)
    simp [colIdx, h1, ih h2]

lemma getD_append_len (r : List Value) (v d : Value) :
    (r ++ [v]).getD r.length d = v := by
  induction r with
  | nil => rfl
  | cons w rs ih =>
    simp only [List.cons_append, List.length_cons, List.getD_cons_succ]
    exact ih

lemma getCellRow_append_last {cols : List String} {r : List Value} {v : Value} {c : String}
    (hlen : r.length = cols.length) (hnc : c ∉ cols) :
    getCellRow (cols ++ [c]) (r ++ [v]) c = v := by
  unfold getCellRow
  rw [colIdx_append_self hnc, ← hlen]
  show (r ++ [v]).getD r.length Value.nan = v
  exact getD_append_len r v Value.nan

lemma rowDrop_append {cols : List String} {c : String} (hnc : c ∉ cols) :
    ∀ r : List Value, r.length = cols.length →
      ∀ v, rowDrop (cols ++ [c]) [c] (r ++ [v]) = r := by
  induction cols with
  | nil =>
    intro r hlen v
    have hr : r = [] := List.length_eq_zero.mp (by simpa using hlen)
    subst hr
    simp [rowDrop]
  | cons c' cs ih =>
    intro r hlen v
    match r with
    | [] => simp at hlen
    | w :: rs =>
      have h1 : ¬ (c' = c) := fun he => hnc (by simp [he])
      have h2 : c ∉ cs := fun hm => hnc (List.mem_cons_of_mem _ hm)
      have hlen' : rs.length = cs.length := by simpa using hlen
      have hkeep : (decide (c' ∉ ([c] : List String))) = true := by
        simp
        exact fun he => h1 he
      show (((c', w) :: ((cs ++ [c]).zip (rs ++ [v]))).filter
        (fun p => decide (p.1 ∉ [c]))).map Prod.snd = w :: rs
      rw [List.filter_cons]
      simp only [hkeep, if_pos]
      simpa [rowDrop] using ih h2 rs hlen' v

lemma filter_append_not_mem {cols : List String} {c : String} (h : c ∉ cols) :
    (cols ++ [c]).filter (fun x => decide (x ∉ [c])) = cols := by
  induction cols with
  | nil => simp
  | cons c' cs ih =>
    have h1 : ¬ (c' = c) := fun he => h (by simp [he])
    have h2 : c ∉ cs := fun hm => h (List.mem_cons_of_mem _ hm)
    simp only [List.cons_append, List.filter_cons, ih h2]
    simp
    exact fun he => h1 he

lemma zip_self_map {α β : Type _} (l : List α) (g : α → β) :
    l.zip (l.map g) = l.map (fun a => (a, g a)) := by
  simpa using List.zip_map' id g l

lemma rowYearOK_eq (cols : List String) (r : List Value) :
    yearGe2000 (yearValue (getCellRow cols r "Close Approach Date")) = rowYearOK cols r := by
  unfold yearValue rowYearOK
  cases getCellRow cols r "Close Approach Date" with
  | str s =>
    cases h : extract_year s with
    | none => simp [h, yearGe2000]
    | some y => simp [h, yearGe2000]
  | nan => rfl
  | int n => rfl
  | rat q => rfl

/-! ## The filter stage: what `mask_data` computes on a well-formed table -/

/-- On a rectangular table that has the date column (with string cells) and
no pre-existing `year` column, `mask_data` returns: the caller's dataframe
with the parsed-year column appended (the in-place mutation), and a fresh
table with the original columns and exactly the rows whose year parses to
at least 2000. -/
lemma mask_data_ok (df : Table) (hWF : df.WF) (hy : "year" ∉ df.cols)
    (hc : "Close Approach Date" ∈ df.cols)
    (hs : ∀ r ∈ df.rows, (getCellRow df.cols r "Close Approach Date").isStr = true) :
    mask_data df =
      Except.ok
        (Table.mk (df.cols ++ ["year"])
          (df.rows.map (fun r =>
            r ++ [yearValue (getCellRow df.cols r "Close Approach Date")])),
         Table.mk df.cols (df.rows.filter (fun r => rowYearOK df.cols r))) := by
  unfold mask_data
  rw [dif_pos hc, dif_pos hs]
  have hset : setCol df "year"
      (df.rows.map (fun r => yearValue (getCellRow df.cols r "Close Approach Date"))) =
      Table.mk (df.cols ++ ["year"])
        (df.rows.map (fun r =>
          r ++ [yearValue (getCellRow df.cols r "Close Approach Date")])) := by
    unfold setCol
    rw [colIdx_eq_none hy]
    rw [zip_self_map, List.map_map]
    rfl
  dsimp only
  rw [hset]
  have hfil : (df.rows.map (fun r =>
        r ++ [yearValue (getCellRow df.cols r "Close Approach Date")])).filter
          (fun r => yearGe2000 (getCellRow (df.cols ++ ["year"]) r "year")) =
      (df.rows.filter (fun r => rowYearOK df.cols r)).map (fun r =>
        r ++ [yearValue (getCellRow df.cols r "Close Approach Date")]) := by
    rw [List.filter_map]
    congr 1
    apply List.filter_congr
    intro r hr
    show yearGe2000 (getCellRow (df.cols ++ ["year"])
      (r ++ [yearValue (getCellRow df.cols r "Close Approach Date")]) "year") =
      rowYearOK df.cols r
    rw [getCellRow_append_last (hWF r hr) hy, rowYearOK_eq]
  dsimp only
  rw [hfil]
  have hdrop : dropCols (Table.mk (df.cols ++ ["year"])
      ((df.rows.filter (fun r => rowYearOK df.cols r)).map (fun r =>
        r ++ [yearValue (getCellRow df.cols r "Close Approach Date")]))) ["year"] =
      Table.mk df.cols (df.rows.filter (fun r => rowYearOK df.cols r)) := by
    unfold dropCols
    congr 1
    · exact filter_append_not_mem hy
    · rw [List.map_map]
      have : ∀ r ∈ df.rows.filter (fun r => rowYearOK df.cols r),
          rowDrop (df.cols ++ ["year"]) ["year"]
            (r ++ [yearValue (getCellRow df.cols r "Close Approach Date")]) = r := by
        intro r hr
        exact rowDrop_append hy r (hWF r (List.mem_of_mem_filter hr)) _
      calc (df.rows.filter (fun r => rowYearOK df.cols r)).map _
          = (df.rows.filter (fun r => rowYearOK df.cols r)).map (fun r => r) :=
            List.map_congr_left this
        _ = df.rows.filter (fun r => rowYearOK df.cols r) := List.map_id'' (fun _ => rfl) _
  rw [hdrop]

/-- Success inversion for `mask_data`: a non-raising run requires the date
column to be present with string cells. -/
lemma mask_data_ok_inv {df : Table} {p : Table × Table}
    (h : mask_data df = Except.ok p) :
    "Close Approach Date" ∈ df.cols ∧
      ∀ r ∈ df.rows, (getCellRow df.cols r "Close Approach Date").isStr = true := by
  by_cases hc : "Close Approach Date" ∈ df.cols
  · by_cases hs : ∀ r ∈ df.rows, (getCellRow df.cols r "Close Approach Date").isStr = true
    · exact ⟨hc, hs⟩
    · exact absurd h (by unfold mask_data; rw [dif_pos hc, dif_neg hs]; simp)
  · exact absurd h (by unfold mask_data; rw [dif_neg hc]; simp)

/-- A row that passes the year filter necessarily has a string date cell
(the other shapes all yield `False` in the mask). -/
lemma isStr_of_rowYearOK {cols : List String} {r : List Value}
    (h : rowYearOK cols r = true) :
    (getCellRow cols r "Close Approach Date").isStr = true := by
  unfold rowYearOK at h
  cases hc : getCellRow cols r "Close Approach Date" <;> rw [hc] at h <;>
    simp_all [Value.isStr]

/-- `extract_year` succeeds with `y` exactly when the hyphen split has
three parts and the first parses as the integer `y`. -/
lemma extract_year_iff (s : String) (y : Int) :
    extract_year s = Option.some y ↔
      ((splitOnChar s '-').length = 3 ∧
        pyInt ((splitOnChar s '-').headD "") = Option.some y) := by
  unfold extract_year
  by_cases h : (splitOnChar s '-').length = 3 <;> simp [h]

lemma length_filter_add (l : List String) (p : String → Bool) :
    (l.filter p).length + (l.filter (fun x => !(p x))).length = l.length := by
  induction l with
  | nil => rfl
  | cons a l ih => cases h : p a <;> simp [List.filter_cons, h, ← ih] <;> omega

/-! ## Claim C1: the Filter retains exactly the rows with a parseable
year ≥ 2000 and returns no temporary year column -/

/-- **C1** (confirmed).  For every rectangular table carrying the
Close Approach Date column as strings and no pre-existing `year` column,
the returned table of `mask_data` keeps exactly the rows whose date
splits on the hyphen into three parts with an integer first part ≥ 2000
(`rowYearOK`, built on `extract_year`; see `extract_year_iff` for the
split-and-parse reading), keeps the original columns, and carries no
temporary `year` column. -/
theorem claim_C1_filter (df : Table) (hWF : df.WF) (hy : "year" ∉ df.cols)
    (hc : "Close Approach Date" ∈ df.cols)
    (hs : ∀ r ∈ df.rows, (getCellRow df.cols r "Close Approach Date").isStr = true) :
    ∃ st res, mask_data df = Except.ok (st, res) ∧
      res.rows = df.rows.filter (fun r => rowYearOK df.cols r) ∧
      res.cols = df.cols ∧
      "year" ∉ res.cols ∧
      (∀ s y, extract_year s = Option.some y ↔
        ((splitOnChar s '-').length = 3 ∧
          pyInt ((splitOnChar s '-').headD "") = Option.some y)) :=
  ⟨_, _, mask_data_ok df hWF hy hc hs, rfl, rfl, hy, extract_year_iff⟩

/-- Witness for C1 at `exC1`: the hypotheses hold there and only the
2001 row survives. -/
theorem claim_C1_filter_witness :
    exC1.WF ∧ "year" ∉ exC1.cols ∧ "Close Approach Date" ∈ exC1.cols ∧
      (∀ r ∈ exC1.rows, (getCellRow exC1.cols r "Close Approach Date").isStr = true) ∧
      (∃ st res, mask_data exC1 = Except.ok (st, res) ∧
        res.rows = exC1.rows.filter (fun r => rowYearOK exC1.cols r) ∧
        res.cols = exC1.cols ∧
        "year" ∉ res.cols ∧
        (∀ s y, extract_year s = Option.some y ↔
          ((splitOnChar s '-').length = 3 ∧
            pyInt ((splitOnChar s '-').headD "") = Option.some y))) :=
  ⟨by decide, by decide, by decide, by decide,
   claim_C1_filter exC1 (by decide) (by decide) (by decide) (by decide)⟩

/-! ## Claim C10: idempotence of the Filter -/

/-- **C10** (confirmed, for tables without a pre-existing `year` column).
On a rectangular table with no `year` column: (1) when every row passes
the year filter and the date column is present, `mask_data` returns a
table identical to its input; (2) whenever `mask_data` succeeds, applying
it again to the returned table succeeds and returns that table unchanged
— `mask_data (mask_data t) = mask_data t`. -/
theorem claim_C10_idempotent (df : Table) (hWF : df.WF) (hy : "year" ∉ df.cols) :
    ((∀ r ∈ df.rows, rowYearOK df.cols r = true) → "Close Approach Date" ∈ df.cols →
      ∃ st, mask_data df = Except.ok (st, df)) ∧
    (∀ st res, mask_data df = Except.ok (st, res) →
      ∃ st2, mask_data res = Except.ok (st2, res)) := by
  constructor
  · intro hall hc
    have hs : ∀ r ∈ df.rows, (getCellRow df.cols r "Close Approach Date").isStr = true :=
      fun r hr => isStr_of_rowYearOK (hall r hr)
    have hfil : df.rows.filter (fun r => rowYearOK df.cols r) = df.rows :=
      List.filter_eq_self.mpr hall
    exact ⟨_, by rw [mask_data_ok df hWF hy hc hs, hfil]⟩
  · intro st res hok
    obtain ⟨hc, hs⟩ := mask_data_ok_inv hok
    rw [mask_data_ok df hWF hy hc hs] at hok
    have hpair : (Table.mk (df.cols ++ ["year"])
        (df.rows.map (fun r =>
          r ++ [yearValue (getCellRow df.cols r "Close Approach Date")])),
        Table.mk df.cols (df.rows.filter (fun r => rowYearOK df.cols r))) = (st, res) := by
      injection hok
    have hres : res = Table.mk df.cols (df.rows.filter (fun r => rowYearOK df.cols r)) := by
      have := congrArg Prod.snd hpair
      exact this.symm
    subst hres
    have hWFr : (Table.mk df.cols
        (df.rows.filter (fun r => rowYearOK df.cols r))).WF :=
      fun r hr => hWF r (List.mem_of_mem_filter hr)
    have hallr : ∀ r ∈ df.rows.filter (fun r => rowYearOK df.cols r),
        rowYearOK df.cols r = true :=
      fun r hr => List.of_mem_filter hr
    have hsr : ∀ r ∈ df.rows.filter (fun r => rowYearOK df.cols r),
        (getCellRow df.cols r "Close Approach Date").isStr = true :=
      fun r hr => isStr_of_rowYearOK (hallr r hr)
    exact ⟨_, by rw [mask_data_ok _ hWFr hy hc hsr, List.filter_eq_self.mpr hallr]⟩

/-- Witness for C10 at `exC10`: the hypotheses hold there, part (1) gives
the identity result and part (2) applies to the concrete successful run. -/
theorem claim_C10_idempotent_witness :
    exC10.WF ∧ "year" ∉ exC10.cols ∧
      (∃ st, mask_data exC10 = Except.ok (st, exC10)) ∧
      (∃ st2, mask_data exC10 = Except.ok (st2, exC10)) :=
  ⟨by decide, by decide,
   (claim_C10_idempotent exC10 (by decide) (by decide)).1 (by decide) (by decide),
   (claim_C10_idempotent exC10 (by decide) (by decide)).2 exC10st exC10 rfl⟩

/-! ## Claim C4: alleged non-mutation of the Filter and the Column Pruner -/

/-- **C4 counterexample.**  Neither stage leaves its input unchanged: on
`exC4` the Filter's caller-state is not the input (a `year` column was
added in place), and on `exC4b` the Column Pruner's caller-state is not
the input (the Orbiting Body column was removed in place). -/
theorem claim_C4_cex :
    (mask_data exC4).toOption.map Prod.fst ≠ Option.some exC4 ∧
    (data_details exC4b).1 ≠ exC4b := by
  decide

/-- **C4 amended** (proved).  The Filter and the Column Pruner each
mutate the caller's table: a successful `mask_data` leaves the caller's
dataframe with the temporary `year` column appended (same row count), and
`data_details` removes the exclusion-set columns from the caller's
dataframe in place (same row count).  The *returned* filter table is a
fresh table (see C1); the pruner returns only the counts triple (see C6). -/
theorem claim_C4_amended :
    (∀ df, df.WF → "year" ∉ df.cols → ∀ st res, mask_data df = Except.ok (st, res) →
      st.cols = df.cols ++ ["year"] ∧ st.rows.length = df.rows.length) ∧
    (∀ df, (data_details df).1.cols = df.cols.filter (fun c => decide (c ∉ dropList)) ∧
      (data_details df).1.rows.length = df.rows.length) := by
  constructor
  · intro df hWF hy st res hok
    obtain ⟨hc, hs⟩ := mask_data_ok_inv hok
    rw [mask_data_ok df hWF hy hc hs] at hok
    have hpair : (Table.mk (df.cols ++ ["year"])
        (df.rows.map (fun r =>
          r ++ [yearValue (getCellRow df.cols r "Close Approach Date")])),
        Table.mk df.cols (df.rows.filter (fun r => rowYearOK df.cols r))) = (st, res) := by
      injection hok
    have hst : st = Table.mk (df.cols ++ ["year"])
        (df.rows.map (fun r =>
          r ++ [yearValue (getCellRow df.cols r "Close Approach Date")])) :=
      (congrArg Prod.fst hpair).symm
    subst hst
    exact ⟨rfl, by simp⟩
  · intro df
    exact ⟨rfl, by simp [data_details, dropCols]⟩

/-- Witness for the amended C4 at `exC4`: the caller's table gains the
`year` column. -/
theorem claim_C4_amended_witness :
    exC4.WF ∧ "year" ∉ exC4.cols ∧
      ((Table.mk ["Close Approach Date", "year"]
        [[Value.str "2001-01-01", Value.int 2001]]) : Table).cols =
          exC4.cols ++ ["year"] ∧
      (Table.mk ["Close Approach Date", "year"]
        [[Value.str "2001-01-01", Value.int 2001]] : Table).rows.length =
          exC4.rows.length :=
  ⟨by decide, by decide,
   (claim_C4_amended.1 exC4 (by decide) (by decide)
     (Table.mk ["Close Approach Date", "year"]
       [[Value.str "2001-01-01", Value.int 2001]])
     (Table.mk ["Close Approach Date"] [[Value.str "2001-01-01"]]) rfl).1,
   (claim_C4_amended.1 exC4 (by decide) (by decide)
     (Table.mk ["Close Approach Date", "year"]
       [[Value.str "2001-01-01", Value.int 2001]])
     (Table.mk ["Close Approach Date"] [[Value.str "2001-01-01"]]) rfl).2⟩

/-! ## Claim C6: what the Column Pruner returns -/

/-- **C6 counterexample.**  `data_details` does not return the resulting
table alongside the counts: its Python return value is only the triple
`(row count, column count, column names)` — here `(2, 1, ["Name"])` —
while the pruned table materialises by destroying the input in place
(the caller's table is no longer the input). -/
theorem claim_C6_cex :
    (data_details exC6).1 ≠ exC6 ∧
    (data_details exC6).2 = (2, 1, ["Name"]) := by
  decide

/-- **C6 amended** (proved).  `data_details` removes the exclusion-set
columns from its argument in place and returns only the triple
`(row count, column count, ordered remaining column names)` of the
mutated table; subsets of the exclusion set being absent is never an
error (the drop is a total filter), and the resulting column count is the
original count minus however many exclusion-set columns were present. -/
theorem claim_C6_amended (df : Table) :
    (data_details df).2 = ((data_details df).1.rows.length,
      (data_details df).1.cols.length, (data_details df).1.cols) ∧
    (data_details df).1.cols = df.cols.filter (fun c => decide (c ∉ dropList)) ∧
    (data_details df).1.cols.length =
      df.cols.length - (df.cols.filter (fun c => decide (c ∈ dropList))).length ∧
    (data_details df).1.rows.length = df.rows.length := by
  refine ⟨rfl, rfl, ?_, by simp [data_details, dropCols]⟩
  have h := length_filter_add df.cols (fun c => decide (c ∈ dropList))
  have hcongr : df.cols.filter (fun c => decide (c ∉ dropList)) =
      df.cols.filter (fun c => !(decide (c ∈ dropList))) := by
    apply List.filter_congr
    intro x _
    simp [decide_not]
  show (dropCols df dropList).cols.length = _
  unfold dropCols
  simp only [hcongr]
  omega

/-! ## Claim C2: the top-level run fails before loading any data -/

/-- **C2** (confirmed).  Stage 13 invokes `load_data()` with no argument
although `filename` is a required positional parameter, so the run raises
`TypeError` at its very first statement: the stage log is empty — no data
is loaded and the Filter, the Aggregators and the Renderer never run.
(The body could not have loaded data either: the module has no imports,
so `pd` is unbound — see `pdMissing` and `call_load_data`.) -/
theorem claim_C2_run_fails :
    runPipeline = ([], Option.some (PyErr.typeError
      "load_data() missing 1 required positional argument: filename")) := rfl

/-! ## Claim C3: the alleged Column Pruner stage of the top-level run -/

/-- **C3 counterexample.**  The stage the top-level run applies between
the Filter and the analysis is the thirteen-column projection, not the
Column Pruner: on the full table `exC3` the data path returns the table
unchanged, and Orbiting Body, Neo Reference ID and Equinox are all still
among its columns — contradicting the claim that the table consumed by
the aggregators and the renderer lacks them. -/
theorem claim_C3_cex :
    stage3Of exC3 = Option.some exC3 ∧
    "Orbiting Body" ∈ exC3.cols ∧
    "Neo Reference ID" ∈ exC3.cols ∧
    "Equinox" ∈ exC3.cols := by
  decide

/-- **C3 amended** (proved).  In the top-level run the stage between the
Filter and the Aggregators/Renderer is the fixed projection `df[[...]]`
onto thirteen named columns that *retains* Orbiting Body, Neo Reference
ID and Equinox (`data_details` is never invoked by Stage 13, whose data
path is `load → mask_data → selectCols → analysis`); moreover the run
fails at the load call with a `TypeError` before any stage executes. -/
theorem claim_C3_amended :
    (∀ df t, selectCols df = Except.ok t →
      t.cols = select13 ∧ "Orbiting Body" ∈ t.cols ∧
        "Neo Reference ID" ∈ t.cols ∧ "Equinox" ∈ t.cols) ∧
    runPipeline = ([], Option.some (PyErr.typeError
      "load_data() missing 1 required positional argument: filename")) := by
  constructor
  · intro df t hok
    unfold selectCols at hok
    by_cases h : ∀ c ∈ select13, c ∈ df.cols
    · rw [dif_pos h] at hok
      injection hok with ht
      subst ht
      refine ⟨rfl, ?_, ?_, ?_⟩
      · show "Orbiting Body" ∈ select13
        decide
      · show "Neo Reference ID" ∈ select13
        decide
      · show "Equinox" ∈ select13
        decide
    · rw [dif_neg h] at hok
      exact absurd hok (by simp)
  · rfl

/-- Witness for the amended C3: the projection applied to `exC3` keeps
the three auxiliary columns. -/
theorem claim_C3_amended_witness :
    exC3.cols = select13 ∧ "Orbiting Body" ∈ exC3.cols ∧
      "Neo Reference ID" ∈ exC3.cols ∧ "Equinox" ∈ exC3.cols :=
  claim_C3_amended.1 exC3 exC3 rfl

/-! ## Claim C9: the loader's error handling -/

/-- **C9** (confirmed).  For every `pd.read_csv` behaviour and path:
a successful read returns the table with no diagnostic; every failure —
missing file, empty file, malformed file, or any other exception — yields
the absent result (`None`) together with the diagnostic line of its kind
(never a propagated exception, the result type being total); the three
specific kinds print pairwise distinct diagnostics; and a table comes
back only when the read succeeded. -/
theorem claim_C9_loader (fs : String → Except CsvError Table) (f : String) :
    (∀ t, fs f = Except.ok t → load_data fs f = ([], Option.some t)) ∧
    (∀ e, fs f = Except.error e → load_data fs f = ([errMsg e], Option.none)) ∧
    (∀ t, (load_data fs f).2 = Option.some t → fs f = Except.ok t) ∧
    (errMsg CsvError.fileNotFound ≠ errMsg CsvError.emptyData ∧
      errMsg CsvError.fileNotFound ≠ errMsg CsvError.parseBad ∧
      errMsg CsvError.emptyData ≠ errMsg CsvError.parseBad) := by
  refine ⟨?_, ?_, ?_, by decide, by decide, by decide⟩
  · intro t h
    unfold load_data
    rw [h]
  · intro e h
    unfold load_data
    rw [h]
    cases e <;> rfl
  · intro t h
    unfold load_data at h
    cases hfs : fs f with
    | ok t' =>
      rw [hfs] at h
      simp at h
      exact congrArg Except.ok h
    | error e =>
      rw [hfs] at h
      cases e <;> simp at h

/-- Witness for C9: a missing file yields the not-found diagnostic and the
absent result. -/
theorem claim_C9_loader_witness :
    fsC9 "nasa.csv" = Except.error CsvError.fileNotFound ∧
    load_data fsC9 "nasa.csv" = (["Error: The file was not found."], Option.none) :=
  ⟨rfl, (claim_C9_loader fsC9 "nasa.csv").2.1 CsvError.fileNotFound rfl⟩

/-! ## Claim C7: counting diameters above the mean -/

lemma toRats_filterMap : ∀ {vs : List Value} {qs : List ℚ},
    toRats vs = Option.some qs → vs.filterMap Value.toRat? = qs := by
  intro vs
  induction vs with
  | nil =>
    intro qs h
    simp [toRats] at h
    simp [h.symm]
  | cons v vs ih =>
    intro qs h
    cases hv : v.toRat? with
    | none => simp [toRats, hv] at h
    | some q =>
      cases ht : toRats vs with
      | none => simp [toRats, hv, ht] at h
      | some qs' =>
        simp [toRats, hv, ht] at h
        simp [List.filterMap_cons, hv, ih ht, ← h]

lemma toRats_length : ∀ {vs : List Value} {qs : List ℚ},
    toRats vs = Option.some qs → vs.length = qs.length := by
  intro vs
  induction vs with
  | nil =>
    intro qs h
    simp [toRats] at h
    simp [h]
  | cons v vs ih =>
    intro qs h
    cases hv : v.toRat? with
    | none => simp [toRats, hv] at h
    | some q =>
      cases ht : toRats vs with
      | none => simp [toRats, hv, ht] at h
      | some qs' =>
        simp [toRats, hv, ht] at h
        simp [← h, ih ht]

lemma filter_vGtB (m : ℚ) : ∀ {vs : List Value} {qs : List ℚ},
    toRats vs = Option.some qs →
    (vs.filter (fun v => vGtB v m)).length =
      (qs.filter (fun q => decide (m < q))).length := by
  intro vs
  induction vs with
  | nil =>
    intro qs h
    simp [toRats] at h
    simp [h]
  | cons v vs ih =>
    intro qs h
    cases hv : v.toRat? with
    | none => simp [toRats, hv] at h
    | some q =>
      cases ht : toRats vs with
      | none => simp [toRats, hv, ht] at h
      | some qs' =>
        simp [toRats, hv, ht] at h
        have hgt : vGtB v m = decide (m < q) := by unfold vGtB; rw [hv]
        rw [← h]
        cases hdec : decide (m < q) <;>
          simp [List.filter_cons, hgt, hdec, ih ht]

lemma colVals_filter_length (df : Table) (c : String) (p : Value → Bool) :
    ((colVals df c).filter p).length =
      (df.rows.filter (fun r => p (getCellRow df.cols r c))).length := by
  unfold colVals
  rw [List.filter_map, List.length_map]
  rfl

/-- On a table whose Est Dia in KM(min) column is all numeric and
non-empty, `min_max_diameter` counts the values strictly above the
column's arithmetic mean (sum over count). -/
lemma min_max_diameter_numeric (df : Table) (qs : List ℚ)
    (h : toRats (colVals df "Est Dia in KM(min)") = Option.some qs) (hne : qs ≠ []) :
    min_max_diameter df =
      (qs.filter (fun q => decide (qs.sum / (qs.length : ℚ) < q))).length := by
  have hlen : ¬ (qs.length = 0) := fun h0 => hne (List.length_eq_zero.mp h0)
  have hmean : pandasMean (colVals df "Est Dia in KM(min)") =
      Option.some (qs.sum / (qs.length : ℚ)) := by
    unfold pandasMean
    rw [toRats_filterMap h]
    dsimp only
    rw [if_neg hlen]
  unfold min_max_diameter
  rw [hmean]
  dsimp only
  rw [← colVals_filter_length df "Est Dia in KM(min)"
    (fun v => vGtB v (qs.sum / (qs.length : ℚ)))]
  exact filter_vGtB _ h

/-- **C7** (confirmed).  On any table whose Est Dia in KM(min) column is
non-empty and numeric, `min_max_diameter` returns the number of rows
whose value strictly exceeds the arithmetic mean (sum over count) of that
column; on values [1, 2, 3, 4] (mean 5/2) it returns 2. -/
theorem claim_C7_diameter :
    (∀ df qs, toRats (colVals df "Est Dia in KM(min)") = Option.some qs → qs ≠ [] →
      min_max_diameter df =
        (qs.filter (fun q => decide (qs.sum / (qs.length : ℚ) < q))).length) ∧
    min_max_diameter exC7 = 2 := by
  refine ⟨min_max_diameter_numeric, ?_⟩
  rw [min_max_diameter_numeric exC7 [1, 2, 3, 4] (by decide) (by decide)]
  norm_num [List.filter]

/-- Witness for C7 at `exC7`: the hypotheses hold for the numeric column
[1, 2, 3, 4] and the count is the two values above the mean. -/
theorem claim_C7_diameter_witness :
    toRats (colVals exC7 "Est Dia in KM(min)") = Option.some [1, 2, 3, 4] ∧
    (([1, 2, 3, 4] : List ℚ) ≠ []) ∧
    min_max_diameter exC7 =
      (([1, 2, 3, 4] : List ℚ).filter (fun q =>
        decide ((([1, 2, 3, 4] : List ℚ).sum / ((([1, 2, 3, 4] : List ℚ).length : ℚ))) < q))).length :=
  ⟨by decide, by decide,
   claim_C7_diameter.1 exC7 [1, 2, 3, 4] (by decide) (by decide)⟩

/-! ## Claim C5: the extremum aggregators -/

lemma toRats_nil_of_some_nil : ∀ {vs : List Value}, toRats vs = Option.some [] → vs = [] := by
  intro vs h
  cases vs with
  | nil => rfl
  | cons v vs =>
    cases hv : v.toRat? <;> cases ht : toRats vs <;> simp [toRats, hv, ht] at h

/-- `idxmaxO` on an all-numeric non-empty column returns the position of
the first maximum together with its value. -/
lemma idxmaxO_spec : ∀ (vs : List Value) (qs : List ℚ),
    toRats vs = Option.some qs → qs ≠ [] →
    ∃ i, idxmaxO vs = Option.some (i, qs.getD i 0) ∧ i < qs.length ∧
      (∀ j, j < qs.length → qs.getD j 0 ≤ qs.getD i 0) ∧
      (∀ j, j < i → qs.getD j 0 < qs.getD i 0) := by
  intro vs
  induction vs with
  | nil =>
    intro qs h hne
    simp [toRats] at h
    exact absurd h hne
  | cons v vs ih =>
    intro qs h hne
    cases hv : v.toRat? with
    | none => simp [toRats, hv] at h
    | some q =>
      cases ht : toRats vs with
      | none => simp [toRats, hv, ht] at h
      | some qs' =>
        simp [toRats, hv, ht] at h
        subst h
        cases qs' with
        | nil =>
          have hvs : vs = [] := toRats_nil_of_some_nil ht
          subst hvs
          refine ⟨0, ?_, by simp, ?_, ?_⟩
          · simp [idxmaxO, hv]
          · intro j hj
            have hj0 : j = 0 := by simpa using hj
            subst hj0
            exact le_refl _
          · intro j hj
            exact absurd hj (Nat.not_lt_zero j)
        | cons q0 qs'' =>
          obtain ⟨i', hidx, hlt, hmax, hfirst⟩ := ih (q0 :: qs'') ht (by simp)
          by_cases hgt : (q0 :: qs'').getD i' 0 > q
          · refine ⟨i' + 1, ?_, ?_, ?_, ?_⟩
            · simp only [idxmaxO, hidx, hv]
              rw [if_pos hgt, List.getD_cons_succ]
            · simpa using Nat.succ_lt_succ hlt
            · intro j hj
              cases j with
              | zero =>
                rw [List.getD_cons_zero, List.getD_cons_succ]
                exact le_of_lt hgt
              | succ j' =>
                rw [List.getD_cons_succ, List.getD_cons_succ]
                exact hmax j' (by simpa using hj)
            · intro j hj
              cases j with
              | zero =>
                rw [List.getD_cons_zero, List.getD_cons_succ]
                exact hgt
              | succ j' =>
                rw [List.getD_cons_succ, List.getD_cons_succ]
                exact hfirst j' (by omega)
          · refine ⟨0, ?_, by simp, ?_, ?_⟩
            · simp only [idxmaxO, hidx, hv]
              rw [if_neg hgt, List.getD_cons_zero]
            · intro j hj
              cases j with
              | zero => exact le_refl _
              | succ j' =>
                rw [List.getD_cons_zero, List.getD_cons_succ]
                exact le_trans (hmax j' (by simpa using hj)) (not_lt.mp hgt)
            · intro j hj
              exact absurd hj (Nat.not_lt_zero j)

/-- `idxminO` on an all-numeric non-empty column returns the position of
the first minimum together with its value. -/
lemma idxminO_spec : ∀ (vs : List Value) (qs : List ℚ),
    toRats vs = Option.some qs → qs ≠ [] →
    ∃ i, idxminO vs = Option.some (i, qs.getD i 0) ∧ i < qs.length ∧
      (∀ j, j < qs.length → qs.getD i 0 ≤ qs.getD j 0) ∧
      (∀ j, j < i → qs.getD i 0 < qs.getD j 0) := by
  intro vs
  induction vs with
  | nil =>
    intro qs h hne
    simp [toRats] at h
    exact absurd h hne
  | cons v vs ih =>
    intro qs h hne
    cases hv : v.toRat? with
    | none => simp [toRats, hv] at h
    | some q =>
      cases ht : toRats vs with
      | none => simp [toRats, hv, ht] at h
      | some qs' =>
        simp [toRats, hv, ht] at h
        subst h
        cases qs' with
        | nil =>
          have hvs : vs = [] := toRats_nil_of_some_nil ht
          subst hvs
          refine ⟨0, ?_, by simp, ?_, ?_⟩
          · simp [idxminO, hv]
          · intro j hj
            have hj0 : j = 0 := by simpa using hj
            subst hj0
            exact le_refl _
          · intro j hj
            exact absurd hj (Nat.not_lt_zero j)
        | cons q0 qs'' =>
          obtain ⟨i', hidx, hlt, hmin, hfirst⟩ := ih (q0 :: qs'') ht (by simp)
          by_cases hltq : (q0 :: qs'').getD i' 0 < q
          · refine ⟨i' + 1, ?_, ?_, ?_, ?_⟩
            · simp only [idxminO, hidx, hv]
              rw [if_pos hltq, List.getD_cons_succ]
            · simpa using Nat.succ_lt_succ hlt
            · intro j hj
              cases j with
              | zero =>
                rw [List.getD_cons_zero, List.getD_cons_succ]
                exact le_of_lt hltq
              | succ j' =>
                rw [List.getD_cons_succ, List.getD_cons_succ]
                exact hmin j' (by simpa using hj)
            · intro j hj
              cases j with
              | zero =>
                rw [List.getD_cons_zero, List.getD_cons_succ]
                exact hltq
              | succ j' =>
                rw [List.getD_cons_succ, List.getD_cons_succ]
                exact hfirst j' (by omega)
          · refine ⟨0, ?_, by simp, ?_, ?_⟩
            · simp only [idxminO, hidx, hv]
              rw [if_neg hltq, List.getD_cons_zero]
            · intro j hj
              cases j with
              | zero => exact le_refl _
              | succ j' =>
                rw [List.getD_cons_zero, List.getD_cons_succ]
                exact le_trans (not_lt.mp hltq) (hmin j' (by simpa using hj))
            · intro j hj
              exact absurd hj (Nat.not_lt_zero j)

lemma map_getD {α β : Type _} (f : α → β) : ∀ (l : List α) (i : Nat), i < l.length →
    ∀ (d : α) (db : β), (l.map f).getD i db = f (l.getD i d) := by
  intro l
  induction l with
  | nil =>
    intro i hi
    simp at hi
  | cons a l ih =>
    intro i hi d db
    cases i with
    | zero => simp
    | succ n =>
      simp only [List.map_cons, List.getD_cons_succ]
      exact ih n (by simpa using hi) d db

lemma getD_mem {α : Type _} : ∀ (l : List α) (i : Nat), i < l.length → ∀ d, l.getD i d ∈ l := by
  intro l
  induction l with
  | nil =>
    intro i hi
    simp at hi
  | cons a l ih =>
    intro i hi d
    cases i with
    | zero => simp
    | succ n =>
      rw [List.getD_cons_succ]
      exact List.mem_cons_of_mem a (ih n (by simpa using hi) d)

lemma toRats_getD : ∀ {vs : List Value} {qs : List ℚ}, toRats vs = Option.some qs →
    ∀ i, i < vs.length → (vs.getD i Value.nan).toRat? = Option.some (qs.getD i 0) := by
  intro vs
  induction vs with
  | nil =>
    intro qs h i hi
    simp at hi
  | cons v vs ih =>
    intro qs h i hi
    cases hv : v.toRat? with
    | none => simp [toRats, hv] at h
    | some q =>
      cases ht : toRats vs with
      | none => simp [toRats, hv, ht] at h
      | some qs' =>
        simp [toRats, hv, ht] at h
        subst h
        cases i with
        | zero => simpa using hv
        | succ n =>
          rw [List.getD_cons_succ, List.getD_cons_succ]
          exact ih ht n (by simpa using hi)

lemma colVals_length (df : Table) (c : String) : (colVals df c).length = df.rows.length := by
  simp [colVals]

lemma cell_getD (df : Table) (c : String) (i : Nat) (hi : i < df.rows.length) :
    getCellRow df.cols (df.rows.getD i []) c = (colVals df c).getD i Value.nan := by
  unfold colVals
  rw [map_getD (fun r => getCellRow df.cols r c) df.rows i hi [] Value.nan]

lemma name_int_of_isInt {df : Table} {i : Nat}
    (hname : ∀ r ∈ df.rows, (getCellRow df.cols r "Name").isInt = true)
    (hi : i < df.rows.length) :
    ∃ n, getCellRow df.cols (df.rows.getD i []) "Name" = Value.int n := by
  have hmem : df.rows.getD i [] ∈ df.rows := getD_mem df.rows i hi []
  have hint := hname _ hmem
  cases hcell : getCellRow df.cols (df.rows.getD i []) "Name" with
  | int n => exact ⟨n, rfl⟩
  | nan => rw [hcell] at hint; simp [Value.isInt] at hint
  | rat q => rw [hcell] at hint; simp [Value.isInt] at hint
  | str s => rw [hcell] at hint; simp [Value.isInt] at hint

/-- **C5** (confirmed).  On a non-empty table with numeric magnitude /
distance columns and integer Name cells: `max_absolute_magnitude` returns
the Name and the magnitude of the first row attaining the maximum
Absolute Magnitude, and `closest_to_earth` returns the Name of the first
row attaining the minimum Miss Dist.(kilometers); on Miss Dist. values
[500, 100, 900] with Names 10, 20, 30 (A, B, C), `closest_to_earth`
returns 20 (B). -/
theorem claim_C5_extremes :
    (∀ df qs, toRats (colVals df "Absolute Magnitude") = Option.some qs → qs ≠ [] →
      (∀ r ∈ df.rows, (getCellRow df.cols r "Name").isInt = true) →
      ∃ i n, i < qs.length ∧
        getCellRow df.cols (df.rows.getD i []) "Name" = Value.int n ∧
        max_absolute_magnitude df = Option.some (n, qs.getD i 0) ∧
        (∀ j, j < qs.length → qs.getD j 0 ≤ qs.getD i 0) ∧
        (∀ j, j < i → qs.getD j 0 < qs.getD i 0)) ∧
    (∀ df qs, toRats (colVals df "Miss Dist.(kilometers)") = Option.some qs → qs ≠ [] →
      (∀ r ∈ df.rows, (getCellRow df.cols r "Name").isInt = true) →
      ∃ i n, i < qs.length ∧
        getCellRow df.cols (df.rows.getD i []) "Name" = Value.int n ∧
        closest_to_earth df = Option.some n ∧
        (∀ j, j < qs.length → qs.getD i 0 ≤ qs.getD j 0) ∧
        (∀ j, j < i → qs.getD i 0 < qs.getD j 0)) ∧
    closest_to_earth exC5 = Option.some 20 ∧
    max_absolute_magnitude exC5 = Option.some (20, 7) := by
  refine ⟨?_, ?_, by decide, by decide⟩
  · intro df qs h hne hname
    obtain ⟨i, hidx, hlt, hmax, hfirst⟩ := idxmaxO_spec _ qs h hne
    have hlen : (colVals df "Absolute Magnitude").length = qs.length := toRats_length h
    have hcl := colVals_length df "Absolute Magnitude"
    have hrows : i < df.rows.length := by omega
    obtain ⟨n, hn⟩ := name_int_of_isInt hname hrows
    have hmag : (getCellRow df.cols (df.rows.getD i []) "Absolute Magnitude").toRat? =
        Option.some (qs.getD i 0) := by
      rw [cell_getD df _ i hrows]
      exact toRats_getD h i (by omega)
    refine ⟨i, n, hlt, hn, ?_, hmax, hfirst⟩
    unfold max_absolute_magnitude
    rw [hidx]
    dsimp only
    rw [hn, hmag]
    rfl
  · intro df qs h hne hname
    obtain ⟨i, hidx, hlt, hmin, hfirst⟩ := idxminO_spec _ qs h hne
    have hlen : (colVals df "Miss Dist.(kilometers)").length = qs.length := toRats_length h
    have hcl := colVals_length df "Miss Dist.(kilometers)"
    have hrows : i < df.rows.length := by omega
    obtain ⟨n, hn⟩ := name_int_of_isInt hname hrows
    refine ⟨i, n, hlt, hn, ?_, hmin, hfirst⟩
    unfold closest_to_earth
    rw [hidx]
    dsimp only
    rw [hn]
    rfl

/-- Witness for C5 at `exC5`: the hypotheses hold for the Miss Dist.
column [500, 100, 900] and the middle row (Name 20) is selected. -/
theorem claim_C5_extremes_witness :
    toRats (colVals exC5 "Miss Dist.(kilometers)") = Option.some [500, 100, 900] ∧
    (∃ i n, i < ([500, 100, 900] : List ℚ).length ∧
      getCellRow exC5.cols (exC5.rows.getD i []) "Name" = Value.int n ∧
      closest_to_earth exC5 = Option.some n ∧
      (∀ j, j < ([500, 100, 900] : List ℚ).length →
        ([500, 100, 900] : List ℚ).getD i 0 ≤ ([500, 100, 900] : List ℚ).getD j 0) ∧
      (∀ j, j < i →
        ([500, 100, 900] : List ℚ).getD i 0 < ([500, 100, 900] : List ℚ).getD j 0)) :=
  ⟨by decide,
   claim_C5_extremes.2.1 exC5 [500, 100, 900] (by decide) (by decide) (by decide)⟩

/-! ## Claim C8: the orbit frequency mapping -/

lemma firstKeys_aux_mem : ∀ (l acc : List Value) (k : Value),
    (k ∈ l.foldl (fun acc v => if v ∈ acc then acc else acc ++ [v]) acc) ↔
      (k ∈ acc ∨ k ∈ l) := by
  intro l
  induction l with
  | nil =>
    intro acc k
    simp
  | cons v l ih =>
    intro acc k
    rw [List.foldl_cons]
    by_cases hv : v ∈ acc
    · rw [if_pos hv, ih]
      constructor
      · rintro (h | h)
        · exact Or.inl h
        · exact Or.inr (List.mem_cons_of_mem v h)
      · rintro (h | h)
        · exact Or.inl h
        · rcases List.mem_cons.mp h with h | h
          · exact Or.inl (by rw [h]; exact hv)
          · exact Or.inr h
    · rw [if_neg hv, ih, List.mem_append, List.mem_singleton]
      constructor
      · rintro ((h | h) | h)
        · exact Or.inl h
        · exact Or.inr (by rw [h]; exact List.mem_cons_self v l)
        · exact Or.inr (List.mem_cons_of_mem v h)
      · rintro (h | h)
        · exact Or.inl (Or.inl h)
        · rcases List.mem_cons.mp h with h | h
          · exact Or.inl (Or.inr h)
          · exact Or.inr h

lemma firstKeys_mem (l : List Value) (k : Value) : k ∈ firstKeys l ↔ k ∈ l := by
  unfold firstKeys
  rw [firstKeys_aux_mem]
  simp

lemma firstKeys_aux_nodup : ∀ (l acc : List Value), acc.Nodup →
    (l.foldl (fun acc v => if v ∈ acc then acc else acc ++ [v]) acc).Nodup := by
  intro l
  induction l with
  | nil =>
    intro acc h
    exact h
  | cons v l ih =>
    intro acc h
    rw [List.foldl_cons]
    by_cases hv : v ∈ acc
    · rw [if_pos hv]
      exact ih acc h
    · rw [if_neg hv]
      refine ih _ ?_
      rw [List.nodup_append]
      refine ⟨h, List.nodup_singleton v, ?_⟩
      intro a ha hav
      rw [List.mem_singleton] at hav
      exact hv (by rw [← hav]; exact ha)

lemma firstKeys_nodup (l : List Value) : (firstKeys l).Nodup :=
  firstKeys_aux_nodup l [] List.nodup_nil

lemma oinsert_perm (x : Value × Nat) : ∀ l, (oinsert x l).Perm (x :: l) := by
  intro l
  induction l with
  | nil => exact List.Perm.refl _
  | cons y ys ih =>
    unfold oinsert
    by_cases hc : y.2 ≤ x.2
    · rw [if_pos hc]
    · rw [if_neg hc]
      exact (ih.cons y).trans (List.Perm.swap x y ys)

lemma csort_perm : ∀ l, (csort l).Perm l := by
  intro l
  induction l with
  | nil => exact List.Perm.refl _
  | cons x xs ih =>
    exact (oinsert_perm x (csort xs)).trans (ih.cons x)

/-- Inserting a pair that precedes every element of a descending-stable
list in key order preserves the descending-stable ordering. -/
lemma oinsert_pairwise (S : Value × Nat → Value × Nat → Prop) (x : Value × Nat) :
    ∀ l, l.Pairwise (fun a b => b.2 < a.2 ∨ (a.2 = b.2 ∧ S a b)) →
      (∀ y ∈ l, S x y) →
      (oinsert x l).Pairwise (fun a b => b.2 < a.2 ∨ (a.2 = b.2 ∧ S a b)) := by
  intro l
  induction l with
  | nil =>
    intro _ _
    simp [oinsert]
  | cons y ys ih =>
    intro hl hS
    rw [List.pairwise_cons] at hl
    obtain ⟨hy, hys⟩ := hl
    unfold oinsert
    by_cases hc : y.2 ≤ x.2
    · rw [if_pos hc]
      rw [List.pairwise_cons]
      constructor
      · intro z hz
        rcases List.mem_cons.mp hz with hz | hz
        · have hQ : y.2 < x.2 ∨ (x.2 = y.2 ∧ S x y) := by
            rcases lt_or_eq_of_le hc with h | h
            · exact Or.inl h
            · exact Or.inr ⟨h.symm, hS y (List.mem_cons_self y ys)⟩
          rw [hz]
          exact hQ
        · have hyz := hy z hz
          have hz2 : z.2 ≤ y.2 := by
            rcases hyz with h | h
            · exact le_of_lt h
            · exact le_of_eq h.1.symm
          rcases lt_or_eq_of_le (le_trans hz2 hc) with h | h
          · exact Or.inl h
          · exact Or.inr ⟨h.symm, hS z (List.mem_cons_of_mem y hz)⟩
      · rw [List.pairwise_cons]
        exact ⟨hy, hys⟩
    · rw [if_neg hc]
      rw [List.pairwise_cons]
      constructor
      · intro z hz
        have hz' : z = x ∨ z ∈ ys :=
          List.mem_cons.mp ((oinsert_perm x ys).mem_iff.mp hz)
        rcases hz' with hz' | hz'
        · subst hz'
          exact Or.inl (not_le.mp hc)
        · exact hy z hz'
      · exact ih hys (fun z hz => hS z (List.mem_cons_of_mem y hz))

/-- The stable descending-count insertion sort of a list that is pairwise
ordered by `S` (the key order) is pairwise ordered by: strictly greater
count first, ties in `S` order. -/
lemma csort_pairwise (S : Value × Nat → Value × Nat → Prop) :
    ∀ l, l.Pairwise S →
      (csort l).Pairwise (fun a b => b.2 < a.2 ∨ (a.2 = b.2 ∧ S a b)) := by
  intro l
  induction l with
  | nil =>
    intro _
    simp [csort]
  | cons x xs ih =>
    intro hl
    rw [List.pairwise_cons] at hl
    unfold csort
    refine oinsert_pairwise S x _ (ih hl.2) ?_
    intro y hy
    exact hl.1 y ((csort_perm xs).mem_iff.mp hy)

lemma nodup_pairwise_findIdx : ∀ (keys : List Value), keys.Nodup →
    keys.Pairwise (fun a b =>
      keys.findIdx (fun x => x == a) < keys.findIdx (fun x => x == b)) := by
  intro keys
  induction keys with
  | nil =>
    intro _
    exact List.Pairwise.nil
  | cons k ks ih =>
    intro hnd
    rw [List.nodup_cons] at hnd
    obtain ⟨hk, hks⟩ := hnd
    rw [List.pairwise_cons]
    constructor
    · intro b hb
      have hkb : (k == b) = false :=
        beq_eq_false_iff_ne.mpr (fun he => hk (by rw [he]; exact hb))
      simp [List.findIdx_cons, hkb]
    · refine List.Pairwise.imp_of_mem ?_ (ih hks)
      intro a b ha hb hab
      have hka : (k == a) = false :=
        beq_eq_false_iff_ne.mpr (fun he => hk (by rw [he]; exact ha))
      have hkb : (k == b) = false :=
        beq_eq_false_iff_ne.mpr (fun he => hk (by rw [he]; exact hb))
      simp only [List.findIdx_cons, hka, hkb, cond_false]
      omega

lemma map_pairwise_rank (keys : List Value) (hnd : keys.Nodup) (cnt : Value → Nat) :
    (keys.map (fun k => (k, cnt k))).Pairwise
      (fun a b => keys.findIdx (fun x => x == a.1) < keys.findIdx (fun x => x == b.1)) := by
  rw [List.pairwise_map]
  exact nodup_pairwise_findIdx keys hnd

/-- Membership characterisation of `value_counts`: exactly the non-NaN
values, each mapped to its number of occurrences. -/
lemma mem_value_counts (vs : List Value) (k : Value) (c : Nat) :
    ((k, c) ∈ value_counts vs) ↔
      (k ≠ Value.nan ∧ k ∈ vs ∧ c = vs.count k) := by
  unfold value_counts
  rw [(csort_perm _).mem_iff, List.mem_map]
  constructor
  · rintro ⟨k', hk', hpair⟩
    have hkk : k' = k := congrArg Prod.fst hpair
    subst hkk
    have hc : c = (vs.filter (fun v => decide (v ≠ Value.nan))).count k' :=
      (congrArg Prod.snd hpair).symm
    have hmem : k' ∈ vs.filter (fun v => decide (v ≠ Value.nan)) :=
      (firstKeys_mem _ _).mp hk'
    have hknan : k' ≠ Value.nan := by
      have := (List.mem_filter.mp hmem).2
      simpa using this
    refine ⟨hknan, (List.mem_filter.mp hmem).1, ?_⟩
    rw [hc]
    exact List.count_filter (by simpa using hknan)
  · rintro ⟨hnan, hmem, hc⟩
    refine ⟨k, ?_, ?_⟩
    · exact (firstKeys_mem _ _).mpr
        (List.mem_filter.mpr ⟨hmem, by simpa using hnan⟩)
    · have hcount : (vs.filter (fun v => decide (v ≠ Value.nan))).count k = c := by
        rw [hc]
        exact List.count_filter (by simpa using hnan)
      rw [hcount]

/-- **C8** (confirmed).  For every table, `common_orbit` is a mapping
whose entries are exactly the non-NaN Orbit ID values paired with the
number of rows bearing them, iterated in descending count order with ties
in first-encounter order (`keyRank`); on Orbit IDs [5, 5, 7, 5, 7] it is
{5: 3, 7: 2} with 5 first, and on the tied [5, 5, 7, 7] it is
{5: 2, 7: 2} with 5 (first encountered) first. -/
theorem claim_C8_common_orbit :
    (∀ df,
      (∀ k c, ((k, c) ∈ common_orbit df) ↔
        (k ≠ Value.nan ∧ k ∈ colVals df "Orbit ID" ∧
          c = (colVals df "Orbit ID").count k)) ∧
      (common_orbit df).Pairwise (fun a b =>
        b.2 < a.2 ∨ (a.2 = b.2 ∧ keyRank df a.1 < keyRank df b.1))) ∧
    common_orbit exC8 = [(Value.int 5, 3), (Value.int 7, 2)] ∧
    common_orbit exC8t = [(Value.int 5, 2), (Value.int 7, 2)] := by
  refine ⟨?_, by decide, by decide⟩
  intro df
  constructor
  · intro k c
    exact mem_value_counts _ k c
  · have hrw : common_orbit df =
        csort ((firstKeys ((colVals df "Orbit ID").filter
          (fun v => decide (v ≠ Value.nan)))).map
            (fun k => (k, ((colVals df "Orbit ID").filter
              (fun v => decide (v ≠ Value.nan))).count k))) := rfl
    rw [hrw]
    refine csort_pairwise _ _ ?_
    exact map_pairwise_rank _
      (firstKeys_nodup ((colVals df "Orbit ID").filter (fun v => decide (v ≠ Value.nan)))) _
